import Mathlib

/-!
# CVOIPManager: lifecycle state machine and add-on upgrade pass

A shallow embedding of `xbmc/voip/VOIPManager.cpp`.

The manager object, the one global setting it reads and the external
collaborators it calls are put together in one record, `Manager`.  Member
functions become functions on that record.  Calls that leave the manager
(the provider-client container, the add-on installer, `Load`, `Sleep`) are
appended to `trace` in program order, and so is every `SetState`; `CLog`
calls and the (re-entrant) locks have no effect on a single thread and are
left out.

`m_clientsManager` is a raw pointer: `none` is `NULL`, `some h` is the
address `h`.  The field `heap` lists the addresses of the containers that
are alive.  Using or deleting a container that is not alive has no defined
behaviour in C++; the embedding stops there with `Outcome.fault`.
-/

namespace VOIP

/-- Modelled from the spec: the enumeration `ManagerState` of `VOIPManager.h`
(the header is not part of the sources); section 3 lists its five values. -/
inductive ManagerState where
  | ManagerStateStopped
  | ManagerStateStarting
  | ManagerStateStarted
  | ManagerStateStopping
  | ManagerStateInterrupted
  deriving DecidableEq, Repr

open ManagerState

/-- Calls observable from outside the manager, in program order. -/
inductive Event where
  /-- The call `SetState(state)` -/
  | setState (state : ManagerState)
  /-- The statement `delete m_pendingUpdates.at(iJobPtr)` -/
  | jobDelete (job : Nat)
  /-- The call `new CVOIPClientsManager()` returned address `h` -/
  | clientsNew (h : Nat)
  /-- The call `m_clientsManager->Start()` -/
  | clientsStart (h : Nat)
  /-- The call `m_clientsManager->Stop()` -/
  | clientsStop (h : Nat)
  /-- The statement `delete m_clientsManager` -/
  | clientsDelete (h : Nat)
  /-- The call `CAddonInstaller::Get().Install(addonID, force, referer, interactive)` -/
  | install (addonID : String) (force : Bool) (referer : String) (interactive : Bool)
  /-- The call `Load()` returned `result` -/
  | load (result : Bool)
  /-- The call `Sleep(ms)` -/
  | sleep (ms : Nat)
  /-- The call `Cleanup()` ran to its last statement; the model adds this mark -/
  | cleanupDone
  deriving DecidableEq, Repr

/-- The manager object together with what it reads and what it acts upon. -/
structure Manager where
  /-- Field `m_managerState` -/
  m_managerState : ManagerState
  /-- Field `m_clientsManager`: `none` is `NULL` -/
  m_clientsManager : Option Nat
  /-- Field `m_pendingUpdates`: the job pointers, in vector order -/
  m_pendingUpdates : List Nat
  /-- Field `m_outdatedAddons`: the `std::map`, as its entries in iteration order -/
  m_outdatedAddons : List (String × String)
  /-- Whether `m_triggerEvent` is signalled -/
  m_triggerEvent : Bool
  /-- Whether `m_initialisedEvent` is signalled -/
  m_initialisedEvent : Bool
  /-- Setting `g_settings.m_bAddonAutoUpdate` -/
  m_bAddonAutoUpdate : Bool
  /-- addresses of the containers that are alive -/
  heap : List Nat
  /-- number of `Load()` calls made so far -/
  loadCalls : Nat
  /-- the calls made so far, oldest first -/
  trace : List Event
  deriving DecidableEq, Repr

/-- How a member function ends. -/
inductive Outcome (α : Type) where
  /-- it returned `a`, leaving the manager as `m` -/
  | ok (a : α) (m : Manager)
  /-- it used a deleted container; `m` is the manager at that point -/
  | fault (m : Manager)
  /-- the loop was cut off; `m` is the manager at that point -/
  | timeout (m : Manager)
  deriving DecidableEq, Repr

/-- Sequencing: run `f` on what `r` returned, if it returned. -/
def Outcome.andThen {α β : Type} (r : Outcome α) (f : α → Manager → Outcome β) : Outcome β :=
  match r with
  | .ok a m => f a m
  | .fault m => .fault m
  | .timeout m => .timeout m

/-- The manager an execution ended in, however it ended. -/
def Outcome.final {α : Type} : Outcome α → Manager
  | .ok _ m => m
  | .fault m => m
  | .timeout m => m

/-- Whether the function returned. -/
def Outcome.returned {α : Type} : Outcome α → Bool
  | .ok _ _ => true
  | _ => false

/-- Append one call to the trace. -/
def emit (e : Event) (m : Manager) : Manager :=
  { m with trace := m.trace ++ [e] }

/-- Member function `CVOIPManager::GetState` -/
def GetState (m : Manager) : ManagerState :=
  m.m_managerState

/-- Member function `CVOIPManager::SetState` -/
def SetState (state : ManagerState) (m : Manager) : Manager :=
  emit (.setState state) { m with m_managerState := state }

/-- Member function `CVOIPManager::IsStarted`: the body is `return true;` -/
def IsStarted (_m : Manager) : Bool :=
  true

/-- Member function `CVOIPManager::InstallAddonAllowed` -/
def InstallAddonAllowed (m : Manager) (_strAddonId : String) : Bool :=
  !IsStarted m

/-- Method `std::map<string,string>::insert`: the entry is put at its place in key
order (`std::less<std::string>`, character by character); when the key is
already present the map is left as it is. -/
def mapInsert (k v : String) : List (String × String) → List (String × String)
  | [] => [(k, v)]
  | (k', v') :: rest =>
    if k.data < k'.data then (k, v) :: (k', v') :: rest
    else if k = k' then (k', v') :: rest
    else (k', v') :: mapInsert k v rest

/-- Method `std::map<string,string>::find`, as the mapped value if there is one. -/
def mapFind (k : String) : List (String × String) → Option String
  | [] => none
  | (k', v') :: rest => if k = k' then some v' else mapFind k rest

/-- Member function `CVOIPManager::MarkAsOutdated` -/
def MarkAsOutdated (strAddonId strReferer : String) (m : Manager) : Manager :=
  if IsStarted m && m.m_bAddonAutoUpdate then
    { m with m_outdatedAddons := mapInsert strAddonId strReferer m.m_outdatedAddons }
  else m

/-- The tail of `Cleanup`: `m_initialisedEvent.Reset(); SetState(ManagerStateStopped);` -/
def cleanupTail (m : Manager) : Manager :=
  emit .cleanupDone (SetState ManagerStateStopped { m with m_initialisedEvent := false })

/-- Member function `CVOIPManager::Cleanup`.  The pointer `m_clientsManager` is not assigned
anywhere in the function: after `delete` it keeps the old address. -/
def Cleanup (m : Manager) : Outcome Unit :=
  let m1 := { m with m_triggerEvent := true }
  let m2 := { m1 with trace := m1.trace ++ m1.m_pendingUpdates.map Event.jobDelete,
                      m_pendingUpdates := [] }
  match m2.m_clientsManager with
  | some h =>
    if h ∈ m2.heap then
      let m3 := emit (.clientsStop h) m2
      let m4 := emit (.clientsDelete h) { m3 with heap := m3.heap.filter (· != h) }
      .ok () (cleanupTail m4)
    else .fault m2
  | none => .ok () (cleanupTail m2)

/-- Member function `CVOIPManager::ResetProperties` -/
def ResetProperties (m : Manager) : Outcome Unit :=
  Cleanup m

/-- Member function `CVOIPManager::Stop` -/
def Stop (m : Manager) : Outcome Unit :=
  if GetState m = ManagerStateStopping ∨ GetState m = ManagerStateStopped then .ok () m
  else
    let m1 := SetState ManagerStateStopping m
    let m2 := { m1 with m_initialisedEvent := true }
    Cleanup m2

/-- An address that no live container has: what `new` returns. -/
def freshAddr (m : Manager) : Nat :=
  m.heap.foldl max 0 + 1

/-- Member function `CVOIPManager::Start`.  Neither argument is read in the body. -/
def Start (_bAsync _bOpenVOIPWindow : Bool) (m : Manager) : Outcome Unit :=
  (Stop m).andThen fun _ m1 =>
  (ResetProperties m1).andThen fun _ m2 =>
  let m3 := SetState ManagerStateStarting m2
  let h := freshAddr m3
  let m4 := emit (.clientsNew h) { m3 with m_clientsManager := some h, heap := h :: m3.heap }
  .ok () (emit (.clientsStart h) m4)

/-- Member function `CVOIPManager::Load`: the body is `return true;`.  The argument is the
number of earlier calls. -/
def Load (_call : Nat) : Bool :=
  true

/-- One call of `Load()`, where `load k` is what the call after `k` earlier
ones returns. -/
def callLoad (load : Nat → Bool) (m : Manager) : Bool × Manager :=
  (load m.loadCalls, emit (.load (load m.loadCalls)) { m with loadCalls := m.loadCalls + 1 })

/-- The call `Sleep(ms)` -/
def Sleep (ms : Nat) (m : Manager) : Manager :=
  emit (.sleep ms) m

/-- The loop `while (!Load() && GetState() == ManagerStateStarting) { Cleanup(); Sleep(1000); }`
of `Process` and of `UpgradeOutdatedAddons`, cut off after `fuel` tests. -/
def loadRetry (load : Nat → Bool) : Nat → Manager → Outcome Unit
  | 0, m => .timeout m
  | fuel + 1, m =>
    let r := callLoad load m
    if r.1 = false ∧ GetState r.2 = ManagerStateStarting then
      (Cleanup r.2).andThen fun _ m2 => loadRetry load fuel (Sleep 1000 m2)
    else .ok () r.2

/-- Member function `CVOIPManager::Process` -/
def Process (load : Nat → Bool) (fuel : Nat) (m : Manager) : Outcome Unit :=
  (loadRetry load fuel m).andThen fun _ m1 =>
  if GetState m1 = ManagerStateStarting then
    let m2 := SetState ManagerStateStarted m1
    .ok () { m2 with m_initialisedEvent := true }
  else .ok () m1

/-- The loop of `UpgradeOutdatedAddons` over the captured map:
one `Install(it->first, true, it->second, false)` per entry; the value
`Install` returns is not read. -/
def installAll (outdatedAddons : List (String × String)) (m : Manager) : Manager :=
  outdatedAddons.foldl (fun m it => emit (.install it.1 true it.2 false) m) m

/-- Member function `CVOIPManager::UpgradeOutdatedAddons` from the comment `// reload` to the
end of the function. -/
def reload (load : Nat → Bool) (fuel : Nat) (m : Manager) : Outcome Bool :=
  let m1 := SetState ManagerStateStarting m
  (ResetProperties m1).andThen fun _ m2 =>
  (loadRetry load fuel m2).andThen fun _ m3 =>
  if GetState m3 = ManagerStateStarting then .ok true (SetState ManagerStateStarted m3)
  else .ok false m3

/-- Member function `CVOIPManager::UpgradeOutdatedAddons` from the line after the
`InstallAddonAllowed` loop to the end of the function. -/
def upgradeAfterGate (load : Nat → Bool) (fuel : Nat) (m : Manager) : Outcome Bool :=
  let outdatedAddons := m.m_outdatedAddons
  let m1 := SetState ManagerStateInterrupted m
  (Cleanup m1).andThen fun _ m2 =>
  reload load fuel (installAll outdatedAddons m2)

/-- Member function `CVOIPManager::UpgradeOutdatedAddons` -/
def UpgradeOutdatedAddons (load : Nat → Bool) (fuel : Nat) (m : Manager) : Outcome Bool :=
  if m.m_outdatedAddons.isEmpty then .ok true m
  else if m.m_outdatedAddons.any (fun it => !InstallAddonAllowed m it.1) then .ok true m
  else upgradeAfterGate load fuel m

/-- The members of the singleton before the constructor body runs: the
initialiser list sets `m_managerState`, the events start unsignalled, and the
object behind `Get()` has static storage, so its pointer starts as `NULL`. -/
def zeroInit (autoUpdate : Bool) : Manager :=
  { m_managerState := ManagerStateStopped
    m_clientsManager := none
    m_pendingUpdates := []
    m_outdatedAddons := []
    m_triggerEvent := false
    m_initialisedEvent := false
    m_bAddonAutoUpdate := autoUpdate
    heap := []
    loadCalls := 0
    trace := [] }

/-- Member function `CVOIPManager::CVOIPManager`: the body is `ResetProperties();` -/
def CVOIPManager (autoUpdate : Bool) : Outcome Unit :=
  ResetProperties (zeroInit autoUpdate)

/-- The manager right after construction. -/
def fresh (autoUpdate : Bool) : Manager :=
  (CVOIPManager autoUpdate).final

/-- A call made by the host application. -/
inductive Call where
  | start (bAsync bOpenVOIPWindow : Bool)
  | stop
  deriving DecidableEq, Repr

/-- Run one call. -/
def Call.run : Call → Manager → Outcome Unit
  | .start a w, m => Start a w m
  | .stop, m => Stop m

/-- Run the calls one after the other on a manager that was just constructed. -/
def runCalls (autoUpdate : Bool) (calls : List Call) : Outcome Unit :=
  calls.foldl (fun r c => r.andThen fun _ m => c.run m) (CVOIPManager autoUpdate)

/-- The state enum after the `SetState` calls of `t`, starting from `s`. -/
def stateAfter (s : ManagerState) : List Event → ManagerState
  | [] => s
  | .setState s' :: t => stateAfter s' t
  | _ :: t => stateAfter s t

/-- The event is a call of the installer. -/
def Event.isInstall : Event → Bool
  | .install _ _ _ _ => true
  | _ => false

/-- The calls a run added to the trace of the manager it started from. -/
def newCalls {α : Type} (m : Manager) (r : Outcome α) : List Event :=
  r.final.trace.drop m.trace.length

/-- The keys of the map are strictly increasing: the order `std::map` keeps. -/
def keysSorted (l : List (String × String)) : Prop :=
  l.Pairwise (fun a b => a.1.data < b.1.data)

/-- The calls `Cleanup` makes when it runs to its end. -/
def cleanupCalls (m : Manager) : List Event :=
  m.m_pendingUpdates.map Event.jobDelete
    ++ (match m.m_clientsManager with
        | some h => [Event.clientsStop h, Event.clientsDelete h]
        | none => [])
    ++ [Event.setState ManagerStateStopped, Event.cleanupDone]

/-- The calls of an upgrade pass up to the installer loop:
`SetState(ManagerStateInterrupted); Cleanup();` -/
def drainCalls (m : Manager) : List Event :=
  Event.setState ManagerStateInterrupted :: cleanupCalls m

/-- The installer calls of an upgrade pass, one per captured entry. -/
def installCalls (outdatedAddons : List (String × String)) : List Event :=
  outdatedAddons.map fun it => Event.install it.1 true it.2 false

/-- The pointer `m_clientsManager` is `NULL` or the address of a live container. -/
def handleValid (m : Manager) : Prop :=
  ∀ h, m.m_clientsManager = some h → h ∈ m.heap

instance (m : Manager) : Decidable (handleValid m) :=
  match hc : m.m_clientsManager with
  | none => isTrue (fun h hh => by rw [hc] at hh; cases hh)
  | some h =>
    if hh : h ∈ m.heap then isTrue (fun h' e => by rw [hc] at e; cases e; exact hh)
    else isFalse (fun hv => hh (hv h hc))

/-- No call in `t` is an installer call. -/
def noInstall (t : List Event) : Prop :=
  ∀ e ∈ t, e.isInstall = false

/-- The run only added calls to the trace of `m`, none of them an installer
call; the state enum it ended with is the one of the last `SetState` among
them; and it ended with the outdated-set `m` had. -/
def quiet {α : Type} (m : Manager) (r : Outcome α) : Prop :=
  ∃ t, r.final.trace = m.trace ++ t ∧ noInstall t ∧
    r.final.m_managerState = stateAfter m.m_managerState t ∧
    r.final.m_outdatedAddons = m.m_outdatedAddons

/-- The event is a `Load()` call. -/
def Event.isLoad : Event → Bool
  | .load _ => true
  | _ => false

/-- The event is a `Sleep` call: the backoff of the retry loop. -/
def Event.isSleep : Event → Bool
  | .sleep _ => true
  | _ => false

/-- The event marks a `Cleanup` that ran to its end. -/
def Event.isCleanupDone : Event → Bool
  | .cleanupDone => true
  | _ => false

/-- The event is a `Stop()` or a `delete` of a provider-client container. -/
def Event.isContainerTeardown : Event → Bool
  | .clientsStop _ => true
  | .clientsDelete _ => true
  | _ => false

/-- A manager in state `ManagerStateStarting` holding a live container: a new
manager after `Start(false, false)`. -/
def startingManager : Manager :=
  (Start false false (fresh true)).final

/-- The managers on which `Start` runs to its end: the pointer is `NULL`, or
the state makes the `Stop()` in `Start` return at once and the pointer is the
address of a live container. -/
def startDefined (m : Manager) : Prop :=
  m.m_clientsManager = none ∨
    ((GetState m = ManagerStateStopping ∨ GetState m = ManagerStateStopped) ∧ handleValid m)

instance (m : Manager) : Decidable (startDefined m) := by
  unfold startDefined
  exact inferInstance

/-- An operation of the manager. -/
inductive Op where
  | start (bAsync bOpenVOIPWindow : Bool)
  | stop
  | cleanup
  | resetProperties
  | setState (state : ManagerState)
  | process
  | markAsOutdated (strAddonId strReferer : String)
  | upgradeOutdatedAddons
  deriving DecidableEq, Repr

/-- The manager an operation ends in, however it ends. -/
def Op.after (load : Nat → Bool) (fuel : Nat) : Op → Manager → Manager
  | .start a w, m => (Start a w m).final
  | .stop, m => (Stop m).final
  | .cleanup, m => (Cleanup m).final
  | .resetProperties, m => (ResetProperties m).final
  | .setState s, m => SetState s m
  | .process, m => (Process load fuel m).final
  | .markAsOutdated id ref, m => MarkAsOutdated id ref m
  | .upgradeOutdatedAddons, m => (UpgradeOutdatedAddons load fuel m).final

/-- Modelled from the spec: the record `AddonCB` of `addons/AddonCallbacks.h`
(not part of the sources), with the members the library uses: the uninterpreted
`addonData` and what the host's `VOIPLib_RegisterMe(addonData)` returns, the
address of the callback table or `none` for `NULL`.  A pointer to the record
is `Option AddonCB`, `none` for `NULL`. -/
structure AddonCB where
  addonData : Nat
  VOIPLib_RegisterMe : Nat → Option Nat

/-- What the library does that is visible outside it, in program order. -/
inductive ShimCall where
  /-- The call `hdl->VOIPLib_RegisterMe(addonData)` -/
  | registerMe (addonData : Nat)
  /-- The call `hdl->VOIPLib_UnRegisterMe(addonData, cb)` -/
  | unRegisterMe (addonData : Nat) (cb : Nat)
  /-- The call `cb->AddMenuHook(addonData, hook)` -/
  | addMenuHook (cb : Nat) (addonData : Nat) (hook : Option Nat)
  /-- The line written to `stderr` when the handle is `NULL` -/
  | errNullHandle
  /-- The line written to `stderr` when the host returns no callback table -/
  | errNoCallbackTable
  deriving DecidableEq, Repr

/-- How a library function ends. -/
inductive ShimOutcome (α : Type) where
  /-- it returned `a` after the calls `calls` -/
  | ok (a : α) (calls : List ShimCall)
  /-- it read a member through a `NULL` pointer after the calls `calls` -/
  | nullDeref (calls : List ShimCall)
  deriving DecidableEq, Repr

/-- Function `VOIP_register_me` -/
def VOIP_register_me (hdl : Option AddonCB) : ShimOutcome (Option Nat) :=
  match hdl with
  | none => .ok none [.errNullHandle]
  | some h =>
    match h.VOIPLib_RegisterMe h.addonData with
    | none => .ok none [.registerMe h.addonData, .errNoCallbackTable]
    | some cb => .ok (some cb) [.registerMe h.addonData]

/-- Function `VOIP_unregister_me` -/
def VOIP_unregister_me (hdl : Option AddonCB) (cb : Option Nat) : ShimOutcome Unit :=
  match hdl, cb with
  | some h, some c => .ok () [.unRegisterMe h.addonData c]
  | _, _ => .ok () []

/-- Function `VOIP_add_menu_hook`: only `cb` is tested; the argument
`((AddonCB*)hdl)->addonData` is read through `hdl` whatever `hdl` is. -/
def VOIP_add_menu_hook (hdl : Option AddonCB) (cb : Option Nat) (hook : Option Nat) :
    ShimOutcome Unit :=
  match cb with
  | none => .ok () []
  | some c =>
    match hdl with
    | none => .nullDeref []
    | some h => .ok () [.addMenuHook c h.addonData hook]

/-! ## The outdated-set -/

theorem InstallAddonAllowed_eq_false (m : Manager) (strAddonId : String) :
    InstallAddonAllowed m strAddonId = false := rfl

theorem MarkAsOutdated_outdated (id ref : String) (m : Manager)
    (hAuto : m.m_bAddonAutoUpdate = true) :
    (MarkAsOutdated id ref m).m_outdatedAddons = mapInsert id ref m.m_outdatedAddons := by
  simp [MarkAsOutdated, IsStarted, hAuto]

theorem mapInsert_twice (k v1 v2 : String) (l : List (String × String)) :
    mapInsert k v2 (mapInsert k v1 l) = mapInsert k v1 l := by
  induction l with
  | nil => simp [mapInsert]
  | cons hd tl ih =>
    obtain ⟨k', v'⟩ := hd
    by_cases h1 : k.data < k'.data
    · simp [mapInsert, h1]
    · by_cases h2 : k = k'
      · simp [mapInsert, h1, h2]
      · simp [mapInsert, h1, h2, ih]

theorem mapFind_eq_none (k : String) (l : List (String × String))
    (h : ∀ x ∈ l, x.1 ≠ k) : mapFind k l = none := by
  induction l with
  | nil => rfl
  | cons hd tl ih =>
    obtain ⟨k', v'⟩ := hd
    have hk : k ≠ k' := fun e => h (k', v') (List.mem_cons_self _ _) e.symm
    have ht : ∀ x ∈ tl, x.1 ≠ k := fun x hx => h x (List.mem_cons_of_mem _ hx)
    simp [mapFind, hk, ih ht]

theorem mapFind_mapInsert (k v : String) (l : List (String × String)) (hs : keysSorted l) :
    mapFind k (mapInsert k v l) = some ((mapFind k l).getD v) := by
  induction l with
  | nil => simp [mapInsert, mapFind]
  | cons hd tl ih =>
    obtain ⟨k', v'⟩ := hd
    have hs' : (∀ x ∈ tl, k'.data < x.1.data) ∧ keysSorted tl := by
      simpa [keysSorted, List.pairwise_cons] using hs
    by_cases h1 : k.data < k'.data
    · have hk : k ≠ k' := by
        intro e
        rw [e] at h1
        exact lt_irrefl _ h1
      have hnone : mapFind k tl = none := by
        apply mapFind_eq_none
        intro x hx e
        have h2 := hs'.1 x hx
        rw [e] at h2
        exact lt_irrefl _ (lt_trans h1 h2)
      simp [mapInsert, mapFind, h1, hk, hnone]
    · by_cases h2 : k = k'
      · simp [mapInsert, mapFind, h1, h2]
      · simp [mapInsert, mapFind, h1, h2, ih hs'.2]

theorem mem_mapInsert (k v : String) (l : List (String × String)) (x : String × String)
    (hx : x ∈ mapInsert k v l) : x = (k, v) ∨ x ∈ l := by
  induction l with
  | nil => simpa [mapInsert] using hx
  | cons hd tl ih =>
    obtain ⟨k', v'⟩ := hd
    by_cases c1 : k.data < k'.data
    · simpa [mapInsert, c1] using hx
    · by_cases c2 : k = k'
      · right; simpa [mapInsert, c1, c2] using hx
      · simp only [mapInsert, c1, c2, if_false, List.mem_cons] at hx
        rcases hx with e | hx
        · right; rw [e]; exact List.mem_cons_self _ _
        · rcases ih hx with e | h
          · left; exact e
          · right; exact List.mem_cons_of_mem _ h

theorem mapInsert_keysSorted (k v : String) (l : List (String × String)) (hs : keysSorted l) :
    keysSorted (mapInsert k v l) := by
  induction l with
  | nil => simp [mapInsert, keysSorted]
  | cons hd tl ih =>
    obtain ⟨k', v'⟩ := hd
    have hs' : (∀ x ∈ tl, k'.data < x.1.data) ∧ keysSorted tl := by
      simpa [keysSorted, List.pairwise_cons] using hs
    by_cases h1 : k.data < k'.data
    · simp only [mapInsert, h1, if_true, keysSorted, List.pairwise_cons]
      refine ⟨?_, ?_, hs'.2⟩
      · intro x hx
        rcases List.mem_cons.mp hx with e | hx
        · rw [e]; exact h1
        · exact lt_trans h1 (hs'.1 x hx)
      · exact hs'.1
    · by_cases h2 : k = k'
      · simpa [mapInsert, h1, h2] using hs
      · have h3 : k'.data < k.data := by
          rcases lt_trichotomy k.data k'.data with h | h | h
          · exact absurd h h1
          · exact absurd (String.ext h) h2
          · exact h
        simp only [mapInsert, h1, h2, if_false, keysSorted, List.pairwise_cons]
        refine ⟨?_, ih hs'.2⟩
        intro x hx
        have hx' : x = (k, v) ∨ x ∈ tl := mem_mapInsert k v tl x hx
        rcases hx' with e | hx'
        · rw [e]; exact h3
        · exact hs'.1 x hx'

/-! ## Start and Stop -/

/-- C1 (the code at the failing input `Start(false, false); Stop()` on a new
manager): `Stop` has returned, the state is `ManagerStateStopped` and the
container at address 1 has been stopped and deleted, but `m_clientsManager`
still holds address 1; a following `Start` does not return, it stops in
`Cleanup` at the use of that deleted container. -/
theorem C1_stop_keeps_deleted_container :
    (runCalls true [.start false false, .stop]).returned = true ∧
    GetState (runCalls true [.start false false, .stop]).final = ManagerStateStopped ∧
    Event.clientsStop 1 ∈ (runCalls true [.start false false, .stop]).final.trace ∧
    1 ∉ (runCalls true [.start false false, .stop]).final.heap ∧
    (runCalls true [.start false false, .stop]).final.m_clientsManager = some 1 ∧
    (runCalls true [.start false false, .stop, .start false false]).returned = false := by
  decide

/-! ## InstallAddonAllowed and MarkAsOutdated -/

/-- C2 (the code at the failing input, a new manager and provider `"p1"`):
the state is `ManagerStateStopped`, so not `ManagerStateStarted`, and
`InstallAddonAllowed` returns false. -/
theorem C2_installAddonAllowed_false_while_stopped :
    GetState (fresh true) = ManagerStateStopped ∧
    GetState (fresh true) ≠ ManagerStateStarted ∧
    InstallAddonAllowed (fresh true) "p1" = false := by
  decide

/-- C3 (the code at the failing input): on a new manager, with state
`ManagerStateStopped`, auto-update enabled and an empty outdated-set,
`MarkAsOutdated("p1", "src1")` records the entry. -/
theorem C3_markAsOutdated_records_while_stopped :
    GetState (fresh true) = ManagerStateStopped ∧
    (fresh true).m_bAddonAutoUpdate = true ∧
    (fresh true).m_outdatedAddons = [] ∧
    (MarkAsOutdated "p1" "src1" (fresh true)).m_outdatedAddons = [("p1", "src1")] := by
  decide

/-- C4 (counterexample): with the manager reporting started and auto-update
enabled, `MarkAsOutdated("p1", "s1")` followed by `MarkAsOutdated("p1", "s2")`
does not leave `"p1"` mapped to `"s2"`: it is mapped to `"s1"`. -/
theorem C4_last_write_does_not_win :
    IsStarted (fresh true) = true ∧ (fresh true).m_bAddonAutoUpdate = true ∧
    ¬ (mapFind "p1" (MarkAsOutdated "p1" "s2"
        (MarkAsOutdated "p1" "s1" (fresh true))).m_outdatedAddons = some "s2") ∧
    mapFind "p1" (MarkAsOutdated "p1" "s2"
        (MarkAsOutdated "p1" "s1" (fresh true))).m_outdatedAddons = some "s1" := by
  decide

/-- C4 (amended): first write wins.  With auto-update enabled and the map in
key order, as a `std::map` is, the second of two `MarkAsOutdated` calls for
the same provider changes nothing, and after both the outdated-set maps the
provider to the source it was registered with first: the one it had before
the two calls if there was one, `s1` otherwise. -/
theorem C4_first_write_wins (id s1 s2 : String) (m : Manager)
    (hAuto : m.m_bAddonAutoUpdate = true) (hs : keysSorted m.m_outdatedAddons) :
    MarkAsOutdated id s2 (MarkAsOutdated id s1 m) = MarkAsOutdated id s1 m ∧
    mapFind id (MarkAsOutdated id s2 (MarkAsOutdated id s1 m)).m_outdatedAddons
      = some ((mapFind id m.m_outdatedAddons).getD s1) := by
  have h1 : MarkAsOutdated id s2 (MarkAsOutdated id s1 m) = MarkAsOutdated id s1 m := by
    simp [MarkAsOutdated, IsStarted, hAuto, mapInsert_twice]
  refine ⟨h1, ?_⟩
  rw [h1, MarkAsOutdated_outdated id s1 m hAuto]
  exact mapFind_mapInsert id s1 _ hs

/-- C4 (amended) at a new manager, provider `"p1"`, sources `"s1"` then `"s2"`. -/
theorem C4_first_write_wins_witness :
    (fresh true).m_bAddonAutoUpdate = true ∧ keysSorted (fresh true).m_outdatedAddons ∧
    MarkAsOutdated "p1" "s2" (MarkAsOutdated "p1" "s1" (fresh true))
      = MarkAsOutdated "p1" "s1" (fresh true) ∧
    mapFind "p1" (MarkAsOutdated "p1" "s2" (MarkAsOutdated "p1" "s1" (fresh true))).m_outdatedAddons
      = some ((mapFind "p1" (fresh true).m_outdatedAddons).getD "s1") :=
  ⟨by decide, List.Pairwise.nil,
   C4_first_write_wins "p1" "s1" "s2" (fresh true) (by decide) List.Pairwise.nil⟩

/-! ## UpgradeOutdatedAddons: the two early returns -/

/-- C5: with an empty outdated-set `UpgradeOutdatedAddons` returns true and
leaves the manager as it was, trace included: the state enum, the
outdated-set, the container pointer and the pending list are unchanged and
neither the installer nor `Cleanup` has been called. -/
theorem C5_upgrade_with_empty_set_is_noop (load : Nat → Bool) (fuel : Nat) (m : Manager)
    (hEmpty : m.m_outdatedAddons = []) :
    UpgradeOutdatedAddons load fuel m = .ok true m := by
  simp [UpgradeOutdatedAddons, hEmpty]

/-- C5 at a new manager, whose outdated-set is empty. -/
theorem C5_upgrade_with_empty_set_is_noop_witness :
    (fresh true).m_outdatedAddons = [] ∧
    UpgradeOutdatedAddons Load 2 (fresh true) = .ok true (fresh true) :=
  ⟨by decide, C5_upgrade_with_empty_set_is_noop Load 2 (fresh true) (by decide)⟩

/-- C6: with a non-empty outdated-set holding an entry for which
`InstallAddonAllowed` is false, `UpgradeOutdatedAddons` takes the return of
the gate loop (the pending outcome, for which the code returns the value
true) and leaves the manager as it was, trace included: no installer call,
same outdated-set, same state enum.  Calling it again gives the same. -/
theorem C6_upgrade_blocked_is_pending (load : Nat → Bool) (fuel : Nat) (m : Manager)
    (hNonEmpty : m.m_outdatedAddons ≠ [])
    (hBlocked : ∃ it ∈ m.m_outdatedAddons, InstallAddonAllowed m it.1 = false) :
    UpgradeOutdatedAddons load fuel m = .ok true m ∧
    (UpgradeOutdatedAddons load fuel m).andThen
      (fun _ m' => UpgradeOutdatedAddons load fuel m') = .ok true m := by
  have h : UpgradeOutdatedAddons load fuel m = .ok true m := by
    obtain ⟨it, hit, hfalse⟩ := hBlocked
    have hany : (m.m_outdatedAddons.any fun it => !InstallAddonAllowed m it.1) = true :=
      List.any_eq_true.mpr ⟨it, hit, by simp [hfalse]⟩
    simp [UpgradeOutdatedAddons, hNonEmpty, hany]
  exact ⟨h, by simp [h, Outcome.andThen]⟩

/-- C6 at a new manager after `MarkAsOutdated("provider.sip", "repo://updates/sip")`. -/
theorem C6_upgrade_blocked_is_pending_witness :
    (MarkAsOutdated "provider.sip" "repo://updates/sip" (fresh true)).m_outdatedAddons ≠ [] ∧
    InstallAddonAllowed (MarkAsOutdated "provider.sip" "repo://updates/sip" (fresh true))
      "provider.sip" = false ∧
    UpgradeOutdatedAddons Load 2 (MarkAsOutdated "provider.sip" "repo://updates/sip" (fresh true))
      = .ok true (MarkAsOutdated "provider.sip" "repo://updates/sip" (fresh true)) :=
  ⟨by decide, rfl,
   (C6_upgrade_blocked_is_pending Load 2
      (MarkAsOutdated "provider.sip" "repo://updates/sip" (fresh true)) (by decide)
      ⟨("provider.sip", "repo://updates/sip"), by decide, rfl⟩).1⟩

/-! ## Cleanup -/

theorem Cleanup_ok (m : Manager) (hv : handleValid m) :
    ∃ m', Cleanup m = .ok () m' ∧ m'.trace = m.trace ++ cleanupCalls m ∧
      m'.m_managerState = ManagerStateStopped ∧
      m'.m_outdatedAddons = m.m_outdatedAddons ∧
      m'.m_clientsManager = m.m_clientsManager ∧
      m'.loadCalls = m.loadCalls := by
  cases hc : m.m_clientsManager with
  | none =>
    simp [Cleanup, hc, cleanupTail, SetState, emit, cleanupCalls]
  | some h =>
    have hh : h ∈ m.heap := hv h hc
    simp [Cleanup, hc, hh, cleanupTail, SetState, emit, cleanupCalls]

theorem Cleanup_fault (m : Manager) (hv : ¬ handleValid m) :
    ∃ m', Cleanup m = .fault m' ∧
      m'.trace = m.trace ++ m.m_pendingUpdates.map Event.jobDelete ∧
      m'.m_managerState = m.m_managerState ∧
      m'.m_outdatedAddons = m.m_outdatedAddons := by
  cases hc : m.m_clientsManager with
  | none => exact absurd (fun h hh => by simp [hc] at hh) hv
  | some h =>
    have hh : h ∉ m.heap := fun hin => hv (fun h' e => by
      rw [hc] at e; cases e; exact hin)
    simp [Cleanup, hc, hh]

theorem Cleanup_state (m m' : Manager) (h : Cleanup m = .ok () m') :
    m'.m_managerState = ManagerStateStopped := by
  by_cases hv : handleValid m
  · obtain ⟨m'', h1, _, h3, _⟩ := Cleanup_ok m hv
    rw [h1] at h
    cases h
    exact h3
  · obtain ⟨m'', h1, _⟩ := Cleanup_fault m hv
    rw [h1] at h
    cases h

theorem noInstall_cleanupCalls (m : Manager) : noInstall (cleanupCalls m) := by
  intro e he
  simp only [cleanupCalls, List.mem_append, List.mem_map] at he
  rcases he with (⟨a, _, rfl⟩ | he) | he
  · rfl
  · cases hc : m.m_clientsManager with
    | none => simp [hc] at he
    | some h =>
      simp only [hc, List.mem_cons, List.mem_singleton] at he
      rcases he with rfl | rfl | he
      · rfl
      · rfl
      · cases he
  · simp only [List.mem_cons, List.mem_singleton] at he
    rcases he with rfl | rfl | he
    · rfl
    · rfl
    · cases he

/-! ## Runs that call no installer and keep the outdated-set -/

theorem stateAfter_append (s : ManagerState) (t1 t2 : List Event) :
    stateAfter s (t1 ++ t2) = stateAfter (stateAfter s t1) t2 := by
  induction t1 generalizing s with
  | nil => rfl
  | cons e t ih => cases e <;> simp [stateAfter, ih]

theorem stateAfter_jobDelete (s : ManagerState) (l : List Nat) :
    stateAfter s (l.map Event.jobDelete) = s := by
  induction l with
  | nil => rfl
  | cons j t ih => simpa [stateAfter] using ih

theorem stateAfter_installCalls (s : ManagerState) (l : List (String × String)) :
    stateAfter s (installCalls l) = s := by
  induction l with
  | nil => rfl
  | cons j t ih => simpa [stateAfter, installCalls] using ih

theorem stateAfter_cleanupCalls (s : ManagerState) (m : Manager) :
    stateAfter s (cleanupCalls m) = ManagerStateStopped := by
  unfold cleanupCalls
  rw [stateAfter_append, stateAfter_append, stateAfter_jobDelete]
  cases m.m_clientsManager <;> rfl

theorem noInstall_append (t1 t2 : List Event) (h1 : noInstall t1) (h2 : noInstall t2) :
    noInstall (t1 ++ t2) := by
  intro e he
  rcases List.mem_append.mp he with h | h
  · exact h1 e h
  · exact h2 e h

theorem noInstall_jobDelete (l : List Nat) : noInstall (l.map Event.jobDelete) := by
  intro e he
  obtain ⟨a, _, rfl⟩ := List.mem_map.mp he
  rfl

theorem quiet_ok {α : Type} (m : Manager) (a : α) : quiet m (.ok a m) :=
  ⟨[], by simp [Outcome.final], by simp [noInstall], rfl, rfl⟩

theorem quiet_step {α : Type} (m m' : Manager) (r : Outcome α) (t : List Event)
    (ht : m'.trace = m.trace ++ t) (hn : noInstall t)
    (hs : m'.m_managerState = stateAfter m.m_managerState t)
    (ho : m'.m_outdatedAddons = m.m_outdatedAddons) (hr : quiet m' r) : quiet m r := by
  obtain ⟨t2, ht2, hn2, hs2, ho2⟩ := hr
  exact ⟨t ++ t2, by rw [ht2, ht, List.append_assoc], noInstall_append _ _ hn hn2,
    by rw [hs2, hs, stateAfter_append], by rw [ho2, ho]⟩

theorem quiet_andThen {α β : Type} (m : Manager) (r : Outcome α)
    (f : α → Manager → Outcome β) (hr : quiet m r)
    (hf : ∀ a m', quiet m' (f a m')) : quiet m (r.andThen f) := by
  cases r with
  | ok a m' =>
    obtain ⟨t, ht, hn, hs, ho⟩ := hr
    exact quiet_step m m' (f a m') t ht hn hs ho (hf a m')
  | fault m' => exact hr
  | timeout m' => exact hr

theorem Cleanup_quiet (m : Manager) : quiet m (Cleanup m) := by
  by_cases hv : handleValid m
  · obtain ⟨m', h1, h2, h3, h4, _⟩ := Cleanup_ok m hv
    rw [h1]
    exact ⟨cleanupCalls m, h2, noInstall_cleanupCalls m,
      by rw [stateAfter_cleanupCalls]; exact h3, h4⟩
  · obtain ⟨m', h1, h2, h3, h4⟩ := Cleanup_fault m hv
    rw [h1]
    exact ⟨_, h2, noInstall_jobDelete _, by rw [stateAfter_jobDelete]; exact h3, h4⟩

theorem SetState_quiet {α : Type} (state : ManagerState) (m : Manager) (r : Outcome α)
    (hr : quiet (SetState state m) r) : quiet m r := by
  apply quiet_step m (SetState state m) r [Event.setState state]
    (by simp [SetState, emit]) _ rfl rfl hr
  intro e he
  rw [List.mem_singleton.mp he]
  rfl

theorem loadRetry_quiet (load : Nat → Bool) (fuel : Nat) (m : Manager) :
    quiet m (loadRetry load fuel m) := by
  induction fuel generalizing m with
  | zero => exact ⟨[], by simp [loadRetry, Outcome.final], by simp [noInstall], rfl, rfl⟩
  | succ n ih =>
    have hstep : (callLoad load m).2.trace = m.trace ++ [Event.load (load m.loadCalls)] := by
      simp [callLoad, emit]
    have hn : noInstall [Event.load (load m.loadCalls)] := by
      intro e he
      rw [List.mem_singleton.mp he]
      rfl
    apply quiet_step m (callLoad load m).2 _ _ hstep hn rfl rfl
    unfold loadRetry
    simp only
    split
    · apply quiet_andThen _ _ _ (Cleanup_quiet _)
      intro _ m2
      have hs : (Sleep 1000 m2).trace = m2.trace ++ [Event.sleep 1000] := by simp [Sleep, emit]
      apply quiet_step m2 (Sleep 1000 m2) _ _ hs _ rfl rfl (ih _)
      intro e he
      rw [List.mem_singleton.mp he]
      rfl
    · exact quiet_ok _ _

theorem reload_quiet (load : Nat → Bool) (fuel : Nat) (m : Manager) :
    quiet m (reload load fuel m) := by
  unfold reload
  apply SetState_quiet ManagerStateStarting
  apply quiet_andThen _ _ _ (Cleanup_quiet _)
  intro _ m2
  apply quiet_andThen _ _ _ (loadRetry_quiet load fuel m2)
  intro _ m3
  split
  · exact SetState_quiet ManagerStateStarted m3 _ (quiet_ok _ _)
  · exact quiet_ok _ _

/-! ## The upgrade pass -/

theorem installAll_eq (l : List (String × String)) (m : Manager) :
    installAll l m = { m with trace := m.trace ++ installCalls l } := by
  induction l generalizing m with
  | nil => simp [installAll, installCalls]
  | cons hd tl ih =>
    have := ih (emit (.install hd.1 true hd.2 false) m)
    simp only [installAll, List.foldl_cons] at this ⊢
    rw [this]
    simp [emit, installCalls]

theorem newCalls_eq {α : Type} (m : Manager) (r : Outcome α) (t : List Event)
    (h : r.final.trace = m.trace ++ t) : newCalls m r = t := by
  simp [newCalls, h]

/-- A pass that starts with a dangling pointer stops in its first `Cleanup`,
before any installer call. -/
theorem upgradeAfterGate_dangling (load : Nat → Bool) (fuel : Nat) (m : Manager)
    (hv : ¬ handleValid m) : quiet m (upgradeAfterGate load fuel m) := by
  have hv1 : ¬ handleValid (SetState ManagerStateInterrupted m) := hv
  obtain ⟨m2, h1, h2, h3, h4⟩ := Cleanup_fault _ hv1
  unfold upgradeAfterGate
  simp only [h1, Outcome.andThen]
  apply SetState_quiet ManagerStateInterrupted
  exact ⟨_, h2, noInstall_jobDelete _, by rw [stateAfter_jobDelete]; exact h3, h4⟩

/-- However the pass ends, the state enum is the one of the last `SetState`
in its calls. -/
theorem upgradeAfterGate_state (load : Nat → Bool) (fuel : Nat) (m : Manager) :
    (upgradeAfterGate load fuel m).final.m_managerState
      = stateAfter m.m_managerState (newCalls m (upgradeAfterGate load fuel m)) := by
  by_cases hv : handleValid m
  · have hv1 : handleValid (SetState ManagerStateInterrupted m) := hv
    obtain ⟨m2, h1, h2, h3, _, _, _⟩ := Cleanup_ok _ hv1
    obtain ⟨Q, hQ, _, hs, _⟩ := reload_quiet load fuel (installAll m.m_outdatedAddons m2)
    have ht : (upgradeAfterGate load fuel m).final.trace
        = m.trace ++ (drainCalls m ++ (installCalls m.m_outdatedAddons ++ Q)) := by
      unfold upgradeAfterGate
      simp only [h1, Outcome.andThen]
      rw [hQ, installAll_eq]
      simp only [h2]
      simp [SetState, emit, drainCalls, cleanupCalls]
    rw [newCalls_eq m _ _ ht]
    unfold upgradeAfterGate
    simp only [h1, Outcome.andThen]
    rw [hs, installAll_eq]
    simp only [h3]
    rw [stateAfter_append, stateAfter_append, stateAfter_installCalls]
    simp [drainCalls, stateAfter, stateAfter_cleanupCalls]
  · obtain ⟨t, ht, _, hs, _⟩ := upgradeAfterGate_dangling load fuel m hv
    rw [newCalls_eq m _ _ ht]
    exact hs

theorem callLoad_state (load : Nat → Bool) (m : Manager) :
    (callLoad load m).2.m_managerState = m.m_managerState := rfl

theorem loadRetry_not_starting (load : Nat → Bool) (fuel : Nat) (m : Manager)
    (h : m.m_managerState ≠ ManagerStateStarting) :
    loadRetry load (fuel + 1) m = .ok () (callLoad load m).2 := by
  simp [loadRetry, GetState, callLoad_state, h]

/-- The reload never ends in `ManagerStateStarted` and never returns true. -/
theorem reload_never_started (load : Nat → Bool) (fuel : Nat) (m : Manager) :
    (reload load fuel m).final.m_managerState ≠ ManagerStateStarted ∧
    ∀ m', reload load fuel m ≠ .ok true m' := by
  by_cases hv : handleValid (SetState ManagerStateStarting m)
  · obtain ⟨m2, h1, _, h3, _⟩ := Cleanup_ok _ hv
    have hns : m2.m_managerState ≠ ManagerStateStarting := by rw [h3]; decide
    cases fuel with
    | zero =>
      simp [reload, ResetProperties, h1, Outcome.andThen, loadRetry, Outcome.final, h3]
    | succ n =>
      simp [reload, ResetProperties, h1, Outcome.andThen, loadRetry_not_starting load n m2 hns,
        GetState, callLoad_state, h3, Outcome.final]
  · obtain ⟨m2, h1, _, h3, _⟩ := Cleanup_fault _ hv
    simp only [reload, ResetProperties, h1, Outcome.andThen, Outcome.final, h3]
    exact ⟨by simp [SetState, emit], fun m' h => by cases h⟩

/-- Either `UpgradeOutdatedAddons` takes one of its two early returns, leaving
the manager as it was, or it is the part after the gate. -/
theorem UpgradeOutdatedAddons_cases (load : Nat → Bool) (fuel : Nat) (m : Manager) :
    UpgradeOutdatedAddons load fuel m = .ok true m ∨
    UpgradeOutdatedAddons load fuel m = upgradeAfterGate load fuel m := by
  unfold UpgradeOutdatedAddons
  split
  · exact Or.inl rfl
  · split
    · exact Or.inl rfl
    · exact Or.inr rfl

theorem callLoad_trace (load : Nat → Bool) (m : Manager) :
    (callLoad load m).2.trace = m.trace ++ [Event.load (load m.loadCalls)] := rfl

/-- The loop ends at its first test when `Load` succeeds or the state is not
`ManagerStateStarting`. -/
theorem loadRetry_pass (load : Nat → Bool) (fuel : Nat) (m : Manager)
    (h : load m.loadCalls = true ∨ m.m_managerState ≠ ManagerStateStarting) :
    loadRetry load (fuel + 1) m = .ok () (callLoad load m).2 := by
  rcases h with h | h
  · simp [loadRetry, callLoad, h]
  · simp [loadRetry, GetState, callLoad_state, h]

/-- The loop makes one cycle and ends at its second test when the first `Load`
fails in state `ManagerStateStarting` and the pointer is valid. -/
theorem loadRetry_cycle (load : Nat → Bool) (m : Manager)
    (hl : load m.loadCalls = false) (hs : m.m_managerState = ManagerStateStarting)
    (hv : handleValid m) :
    ∃ m2, Cleanup (callLoad load m).2 = .ok () m2 ∧
      m2.trace = m.trace ++ ([Event.load false] ++ cleanupCalls m) ∧
      m2.m_managerState = ManagerStateStopped ∧
      m2.loadCalls = m.loadCalls + 1 ∧
      loadRetry load 1 m = .timeout (Sleep 1000 m2) ∧
      ∀ fuel, loadRetry load (fuel + 2) m = .ok () (callLoad load (Sleep 1000 m2)).2 := by
  have hv1 : handleValid (callLoad load m).2 := hv
  obtain ⟨m2, h1, h2, h3, _, _, h6⟩ := Cleanup_ok _ hv1
  have hns : (Sleep 1000 m2).m_managerState ≠ ManagerStateStarting := by
    simp [Sleep, emit, h3]
  refine ⟨m2, h1, ?_, h3, ?_, ?_, ?_⟩
  · rw [h2, callLoad_trace, hl, List.append_assoc]
    rfl
  · rw [h6]; rfl
  · have hc : (callLoad load m).1 = false := hl
    simp [loadRetry, hc, GetState, callLoad_state, hs, h1, Outcome.andThen]
  · intro fuel
    have hc : (callLoad load m).1 = false := hl
    have := loadRetry_pass load fuel (Sleep 1000 m2) (Or.inr hns)
    rw [loadRetry]
    simp only [hc, GetState, callLoad_state, hs, and_self, if_true, h1, Outcome.andThen]
    exact this

/-- The loop stops in its first `Cleanup` when the first `Load` fails in state
`ManagerStateStarting` and the pointer is dangling. -/
theorem loadRetry_fault (load : Nat → Bool) (m : Manager)
    (hl : load m.loadCalls = false) (hs : m.m_managerState = ManagerStateStarting)
    (hv : ¬ handleValid m) :
    ∃ m2, (∀ fuel, loadRetry load (fuel + 1) m = .fault m2) ∧
      m2.trace = m.trace ++ ([Event.load false] ++ m.m_pendingUpdates.map Event.jobDelete) ∧
      m2.m_managerState = ManagerStateStarting := by
  have hv1 : ¬ handleValid (callLoad load m).2 := hv
  obtain ⟨m2, h1, h2, h3, _⟩ := Cleanup_fault _ hv1
  refine ⟨m2, ?_, ?_, ?_⟩
  · intro fuel
    have hc : (callLoad load m).1 = false := hl
    rw [loadRetry]
    simp only [hc, GetState, callLoad_state, hs, and_self, if_true, h1, Outcome.andThen]
  · rw [h2, callLoad_trace, hl, List.append_assoc]
    rfl
  · rw [h3]; exact hs

theorem countP_jobDelete (p : Event → Bool) (l : List Nat)
    (hp : ∀ j, p (Event.jobDelete j) = false) :
    (l.map Event.jobDelete).countP p = 0 := by
  induction l with
  | nil => rfl
  | cons j t ih => simp [List.countP_cons, ih, hp]

theorem countP_cleanupCalls (p : Event → Bool) (m : Manager)
    (hj : ∀ j, p (Event.jobDelete j) = false)
    (h1 : ∀ h, p (Event.clientsStop h) = false)
    (h2 : ∀ h, p (Event.clientsDelete h) = false)
    (h3 : p (Event.setState ManagerStateStopped) = false) :
    (cleanupCalls m).countP p = if p Event.cleanupDone then 1 else 0 := by
  unfold cleanupCalls
  rw [List.countP_append, List.countP_append, countP_jobDelete p _ hj]
  cases m.m_clientsManager <;> simp [List.countP_cons, h1, h2, h3]

/-- More than two tests of the loop condition are never needed. -/
theorem loadRetry_fuel (load : Nat → Bool) (fuel : Nat) (m : Manager) :
    loadRetry load (fuel + 2) m = loadRetry load 2 m := by
  by_cases hp : load m.loadCalls = true ∨ m.m_managerState ≠ ManagerStateStarting
  · rw [loadRetry_pass load (fuel + 1) m hp, loadRetry_pass load 1 m hp]
  · have hl : load m.loadCalls = false := by
      cases h : load m.loadCalls
      · rfl
      · exact absurd (Or.inl h) hp
    have hs : m.m_managerState = ManagerStateStarting := by
      by_contra h
      exact hp (Or.inr h)
    by_cases hv : handleValid m
    · obtain ⟨m2, _, _, _, _, _, h6⟩ := loadRetry_cycle load m hl hs hv
      rw [h6 fuel, h6 0]
    · obtain ⟨m2, h1, _⟩ := loadRetry_fault load m hl hs hv
      rw [h1 (fuel + 1), h1 1]

/-- With two tests the loop has ended: it returned, or it stopped in
`Cleanup` on a dangling pointer.  It made at most two `Load` calls, at most
one `Cleanup` and at most one `Sleep`. -/
theorem loadRetry_two (load : Nat → Bool) (m : Manager) :
    ((∃ m', loadRetry load 2 m = .ok () m') ∨
      (¬ handleValid m ∧ ∃ m', loadRetry load 2 m = .fault m')) ∧
    (newCalls m (loadRetry load 2 m)).countP Event.isLoad ≤ 2 ∧
    (newCalls m (loadRetry load 2 m)).countP Event.isCleanupDone ≤ 1 ∧
    (newCalls m (loadRetry load 2 m)).countP Event.isSleep ≤ 1 := by
  by_cases hp : load m.loadCalls = true ∨ m.m_managerState ≠ ManagerStateStarting
  · have h := loadRetry_pass load 1 m hp
    have hn : newCalls m (loadRetry load 2 m) = [Event.load (load m.loadCalls)] :=
      newCalls_eq m _ _ (by rw [h]; rfl)
    rw [hn]
    exact ⟨Or.inl ⟨_, h⟩, by simp [List.countP_cons, Event.isLoad],
      by simp [List.countP_cons, Event.isCleanupDone], by simp [List.countP_cons, Event.isSleep]⟩
  · have hl : load m.loadCalls = false := by
      cases h : load m.loadCalls
      · rfl
      · exact absurd (Or.inl h) hp
    have hs : m.m_managerState = ManagerStateStarting := by
      by_contra h
      exact hp (Or.inr h)
    by_cases hv : handleValid m
    · obtain ⟨m2, _, h2, _, _, _, h6⟩ := loadRetry_cycle load m hl hs hv
      have h := h6 0
      have hn : newCalls m (loadRetry load 2 m)
          = [Event.load false] ++ cleanupCalls m
            ++ [Event.sleep 1000, Event.load (load (Sleep 1000 m2).loadCalls)] := by
        apply newCalls_eq
        rw [h]
        simp [Outcome.final, callLoad, Sleep, emit, h2]
      rw [hn]
      refine ⟨Or.inl ⟨_, h⟩, ?_, ?_, ?_⟩
      · rw [List.countP_append, List.countP_append,
          countP_cleanupCalls _ m (fun _ => rfl) (fun _ => rfl) (fun _ => rfl) rfl]
        simp [List.countP_cons, Event.isLoad]
      · rw [List.countP_append, List.countP_append,
          countP_cleanupCalls _ m (fun _ => rfl) (fun _ => rfl) (fun _ => rfl) rfl]
        simp [List.countP_cons, Event.isCleanupDone]
      · rw [List.countP_append, List.countP_append,
          countP_cleanupCalls _ m (fun _ => rfl) (fun _ => rfl) (fun _ => rfl) rfl]
        simp [List.countP_cons, Event.isSleep]
    · obtain ⟨m2, h1, h2, _⟩ := loadRetry_fault load m hl hs hv
      have h := h1 1
      have hn : newCalls m (loadRetry load 2 m)
          = [Event.load false] ++ m.m_pendingUpdates.map Event.jobDelete :=
        newCalls_eq m _ _ (by rw [h]; exact h2)
      rw [hn]
      refine ⟨Or.inr ⟨hv, _, h⟩, ?_, ?_, ?_⟩
      · rw [List.countP_append, countP_jobDelete _ _ (fun _ => rfl)]
        simp [List.countP_cons, Event.isLoad]
      · rw [List.countP_append, countP_jobDelete _ _ (fun _ => rfl)]
        simp [List.countP_cons, Event.isCleanupDone]
      · rw [List.countP_append, countP_jobDelete _ _ (fun _ => rfl)]
        simp [List.countP_cons, Event.isSleep]

/-- After a first `Load` that fails in state `ManagerStateStarting`, `Process`
never ends in `ManagerStateStarted`, whatever `Load` does later. -/
theorem Process_after_failed_load (load : Nat → Bool) (fuel : Nat) (m : Manager)
    (hl : load m.loadCalls = false) (hs : m.m_managerState = ManagerStateStarting) :
    (Process load fuel m).final.m_managerState ≠ ManagerStateStarted := by
  by_cases hv : handleValid m
  · obtain ⟨m2, _, _, h3, _, h5, h6⟩ := loadRetry_cycle load m hl hs hv
    match fuel with
    | 0 => simp [Process, loadRetry, Outcome.andThen, Outcome.final, hs]
    | 1 => simp [Process, h5, Outcome.andThen, Outcome.final, Sleep, emit, h3]
    | n + 2 =>
      simp [Process, h6 n, Outcome.andThen, Outcome.final, GetState, callLoad_state,
        Sleep, emit, h3]
  · obtain ⟨m2, h1, _, h3⟩ := loadRetry_fault load m hl hs hv
    match fuel with
    | 0 => simp [Process, loadRetry, Outcome.andThen, Outcome.final, hs]
    | n + 1 => simp [Process, h1 n, Outcome.andThen, Outcome.final, h3]

/-- C18: when the `Load` call of `Process` succeeds, `Process` returns; if the
state was `ManagerStateStarting` at entry it has called
`SetState(ManagerStateStarted)` and set the initialised signal, and for every
other entry state it has made no `SetState` call and left the state enum and
the initialised signal as they were. -/
theorem C18_process_starts_only_from_starting (load : Nat → Bool) (fuel : Nat) (m : Manager)
    (hLoad : load m.loadCalls = true) :
    ∃ m', Process load (fuel + 1) m = .ok () m' ∧
      (GetState m = ManagerStateStarting →
        GetState m' = ManagerStateStarted ∧ m'.m_initialisedEvent = true ∧
        newCalls m (Process load (fuel + 1) m)
          = [Event.load true, Event.setState ManagerStateStarted]) ∧
      (GetState m ≠ ManagerStateStarting →
        GetState m' = GetState m ∧ m'.m_initialisedEvent = m.m_initialisedEvent ∧
        newCalls m (Process load (fuel + 1) m) = [Event.load true]) := by
  have h := loadRetry_pass load fuel m (Or.inl hLoad)
  by_cases hs : GetState m = ManagerStateStarting
  · have hs' : GetState (callLoad load m).2 = ManagerStateStarting := hs
    have hP : Process load (fuel + 1) m = .ok ()
        { SetState ManagerStateStarted (callLoad load m).2 with m_initialisedEvent := true } := by
      simp only [Process, h, Outcome.andThen, hs', if_true]
    refine ⟨_, hP, ?_, ?_⟩
    · intro _
      refine ⟨rfl, rfl, ?_⟩
      apply newCalls_eq
      rw [hP]
      simp [Outcome.final, SetState, emit, callLoad, hLoad]
    · intro hn
      exact absurd hs hn
  · have hs' : ¬ GetState (callLoad load m).2 = ManagerStateStarting := hs
    have hP : Process load (fuel + 1) m = .ok () (callLoad load m).2 := by
      simp only [Process, h, Outcome.andThen, hs', if_false]
    refine ⟨_, hP, ?_, ?_⟩
    · intro hn
      exact absurd hn hs
    · intro _
      refine ⟨rfl, rfl, ?_⟩
      apply newCalls_eq
      rw [hP]
      simp [Outcome.final, emit, callLoad, hLoad]

/-- C18 at a manager in state `ManagerStateStarting`, with the `Load` of the
sources. -/
theorem C18_process_starts_only_from_starting_witness :
    Load startingManager.loadCalls = true ∧
    ∃ m', Process Load 1 startingManager = .ok () m' ∧
      GetState m' = ManagerStateStarted ∧ m'.m_initialisedEvent = true :=
  have h := C18_process_starts_only_from_starting Load 0 startingManager rfl
  ⟨rfl, h.choose, h.choose_spec.1, (h.choose_spec.2.1 (by decide)).1,
    (h.choose_spec.2.1 (by decide)).2.1⟩

/-- C20: the loop `while (!Load() && GetState() == ManagerStateStarting)` needs
no more than two tests of its condition, whatever `Load` returns and whatever
the manager: with two tests or more it has ended, having returned (or
stopped in its `Cleanup` when the pointer was dangling), after at most two
`Load` calls, at most one `Cleanup` and at most one `Sleep`.  So have
`Process` and the reload of `UpgradeOutdatedAddons`, which run this loop. -/
theorem C20_retry_loop_ends_within_two_loads (load : Nat → Bool) (fuel : Nat) (m : Manager) :
    loadRetry load (fuel + 2) m = loadRetry load 2 m ∧
    ((∃ m', loadRetry load 2 m = .ok () m') ∨
      (¬ handleValid m ∧ ∃ m', loadRetry load 2 m = .fault m')) ∧
    (newCalls m (loadRetry load 2 m)).countP Event.isLoad ≤ 2 ∧
    (newCalls m (loadRetry load 2 m)).countP Event.isCleanupDone ≤ 1 ∧
    (newCalls m (loadRetry load 2 m)).countP Event.isSleep ≤ 1 ∧
    Process load (fuel + 2) m = Process load 2 m ∧
    reload load (fuel + 2) m = reload load 2 m := by
  obtain ⟨h1, h2, h3, h4⟩ := loadRetry_two load m
  refine ⟨loadRetry_fuel load fuel m, h1, h2, h3, h4, ?_, ?_⟩
  · simp only [Process, loadRetry_fuel]
  · simp only [reload, loadRetry_fuel]

/-! ## Start -/

theorem Cleanup_ok_fields (m : Manager) (hv : handleValid m) :
    ∃ m', Cleanup m = .ok () m' ∧ m'.m_initialisedEvent = false ∧
      m'.m_pendingUpdates = [] ∧ m'.m_managerState = ManagerStateStopped ∧
      m'.loadCalls = m.loadCalls ∧ m'.m_clientsManager = m.m_clientsManager ∧
      m'.trace = m.trace ++ cleanupCalls m ∧
      ∀ x, m.m_clientsManager = some x → x ∉ m'.heap := by
  cases hc : m.m_clientsManager with
  | none =>
    simp [Cleanup, hc, cleanupTail, SetState, emit, cleanupCalls]
  | some h =>
    have hh : h ∈ m.heap := hv h hc
    simp [Cleanup, hc, hh, cleanupTail, SetState, emit, cleanupCalls]

/-- What `Start` does after its `Stop()` has returned, when the pointer is then
valid: it returns in state `ManagerStateStarting`, with the initialised
signal reset, the pending list empty, no `Load` call made, and a new live
container that has been started once. -/
theorem Start_of_Stop (a w : Bool) (m m1 : Manager) (hStop : Stop m = .ok () m1)
    (hv1 : handleValid m1) :
    ∃ m', Start a w m = .ok () m' ∧ GetState m' = ManagerStateStarting ∧
      m'.m_initialisedEvent = false ∧ m'.m_pendingUpdates = [] ∧
      m'.loadCalls = m1.loadCalls ∧
      ∃ h, m'.m_clientsManager = some h ∧ h ∈ m'.heap ∧
        m'.trace = m1.trace ++ cleanupCalls m1
          ++ [Event.setState ManagerStateStarting, Event.clientsNew h, Event.clientsStart h] := by
  obtain ⟨m2, h1, h2, h3, _, h5, _, h7, _⟩ := Cleanup_ok_fields m1 hv1
  have hS : Start a w m = .ok ()
      (emit (.clientsStart (freshAddr (SetState ManagerStateStarting m2)))
        (emit (.clientsNew (freshAddr (SetState ManagerStateStarting m2)))
          { SetState ManagerStateStarting m2 with
            m_clientsManager := some (freshAddr (SetState ManagerStateStarting m2)),
            heap := freshAddr (SetState ManagerStateStarting m2)
              :: (SetState ManagerStateStarting m2).heap })) := by
    simp only [Start, hStop, Outcome.andThen, ResetProperties, h1]
  refine ⟨_, hS, rfl, ?_, ?_, ?_, freshAddr (SetState ManagerStateStarting m2), rfl, ?_, ?_⟩
  · simpa [emit, SetState] using h2
  · simpa [emit, SetState] using h3
  · simpa [emit, SetState] using h5
  · simp [emit]
  · simp [emit, SetState, h7]

/-- On the managers of `startDefined`, `Start` returns. -/
theorem Start_ok (a w : Bool) (m : Manager) (h : startDefined m) :
    ∃ m', Start a w m = .ok () m' ∧ GetState m' = ManagerStateStarting ∧
      m'.m_initialisedEvent = false ∧ m'.m_pendingUpdates = [] ∧
      m'.loadCalls = m.loadCalls ∧
      ∃ h, m'.m_clientsManager = some h ∧ h ∈ m'.heap := by
  by_cases hs : GetState m = ManagerStateStopping ∨ GetState m = ManagerStateStopped
  · have hStop : Stop m = .ok () m := by simp [Stop, hs]
    have hv : handleValid m := by
      rcases h with h | h
      · intro x hx
        rw [h] at hx
        cases hx
      · exact h.2
    obtain ⟨m', h1, h2, h3, h4, h5, x, h6, h7, _⟩ := Start_of_Stop a w m m hStop hv
    exact ⟨m', h1, h2, h3, h4, h5, x, h6, h7⟩
  · have hnone : m.m_clientsManager = none := by
      rcases h with h | h
      · exact h
      · exact absurd h.1 hs
    have hv : handleValid
        { SetState ManagerStateStopping m with m_initialisedEvent := true } := by
      intro x hx
      have : m.m_clientsManager = some x := hx
      rw [hnone] at this
      cases this
    obtain ⟨m1, h1, _, _, _, h5, h6, _, _⟩ := Cleanup_ok_fields _ hv
    have hStop : Stop m = .ok () m1 := by
      simp only [Stop, hs, if_false]
      exact h1
    have hv1 : handleValid m1 := by
      intro x hx
      rw [h6] at hx
      have : m.m_clientsManager = some x := hx
      rw [hnone] at this
      cases this
    obtain ⟨m', g1, g2, g3, g4, g5, x, g6, g7, _⟩ := Start_of_Stop a w m m1 hStop hv1
    exact ⟨m', g1, g2, g3, g4, by rw [g5, h5]; rfl, x, g6, g7⟩

/-- On every other manager `Start` does not return: it stops in a `Cleanup`
on a deleted container. -/
theorem Start_fault (a w : Bool) (m : Manager) (h : ¬ startDefined m) :
    (Start a w m).returned = false := by
  have hsome : ∃ x, m.m_clientsManager = some x := by
    cases hc : m.m_clientsManager with
    | none => exact absurd (Or.inl hc) h
    | some x => exact ⟨x, rfl⟩
  obtain ⟨x, hx⟩ := hsome
  by_cases hs : GetState m = ManagerStateStopping ∨ GetState m = ManagerStateStopped
  · have hStop : Stop m = .ok () m := by simp [Stop, hs]
    have hv : ¬ handleValid m := fun hv => h (Or.inr ⟨hs, hv⟩)
    obtain ⟨m2, h1, _⟩ := Cleanup_fault m hv
    simp [Start, hStop, Outcome.andThen, ResetProperties, h1, Outcome.returned]
  · by_cases hv : handleValid m
    · have hv' : handleValid
          { SetState ManagerStateStopping m with m_initialisedEvent := true } := hv
      obtain ⟨m1, h1, _, _, _, _, h6, _, h8⟩ := Cleanup_ok_fields _ hv'
      have hStop : Stop m = .ok () m1 := by
        simp only [Stop, hs, if_false]
        exact h1
      have hx1 : m1.m_clientsManager = some x := by rw [h6]; exact hx
      have hv1 : ¬ handleValid m1 := fun hv1 => h8 x hx (hv1 x hx1)
      obtain ⟨m2, g1, _⟩ := Cleanup_fault m1 hv1
      simp [Start, hStop, Outcome.andThen, ResetProperties, g1, Outcome.returned]
    · have hv' : ¬ handleValid
          { SetState ManagerStateStopping m with m_initialisedEvent := true } := hv
      obtain ⟨m2, h1, _⟩ := Cleanup_fault _ hv'
      have hStop : Stop m = .fault m2 := by
        simp only [Stop, hs, if_false]
        exact h1
      simp [Start, hStop, Outcome.andThen, Outcome.returned]

/-! ## Claims about the retry loop, Stop, Cleanup, Start and the add-on library -/

/-- Two `Stop` calls in a row do what one does, whatever the manager. -/
theorem Stop_Stop (m : Manager) :
    (Stop m).andThen (fun _ m' => Stop m') = Stop m := by
  by_cases h : GetState m = ManagerStateStopping ∨ GetState m = ManagerStateStopped
  · simp [Stop, h, Outcome.andThen]
  · cases hc : Stop m with
    | ok a m' =>
      have hs : m'.m_managerState = ManagerStateStopped := by
        simp only [Stop, h, if_false] at hc
        exact Cleanup_state _ _ hc
      simp [Outcome.andThen, Stop, GetState, hs]
    | fault m' => rfl
    | timeout m' => rfl

/-- C12: in state `ManagerStateStopping` or `ManagerStateStopped`, `Stop`
returns leaving the manager as it was, trace included: every field is
unchanged and neither `Cleanup` nor the container has been called; a second
`Stop` gives the same. -/
theorem C12_stop_is_noop_when_stopped (m : Manager)
    (h : GetState m = ManagerStateStopping ∨ GetState m = ManagerStateStopped) :
    Stop m = .ok () m ∧ (Stop m).andThen (fun _ m' => Stop m') = .ok () m := by
  have h1 : Stop m = .ok () m := by simp [Stop, h]
  exact ⟨h1, by simp [h1, Outcome.andThen]⟩

/-- C12 at a new manager, whose state is `ManagerStateStopped`. -/
theorem C12_stop_is_noop_when_stopped_witness :
    (GetState (fresh true) = ManagerStateStopping ∨
      GetState (fresh true) = ManagerStateStopped) ∧
    Stop (fresh true) = .ok () (fresh true) :=
  ⟨by decide, (C12_stop_is_noop_when_stopped (fresh true) (by decide)).1⟩

/-- C13 (the code at the failing input): `Cleanup` on a manager holding the
live container 1 returns with the pending list empty, the container stopped
once and deleted, the initialised signal reset, the state
`ManagerStateStopped` and the outdated-set unchanged, but `m_clientsManager`
still holds address 1: the handle is not absent. -/
theorem C13_cleanup_keeps_pointer :
    startingManager.m_clientsManager = some 1 ∧ 1 ∈ startingManager.heap ∧
    (Cleanup startingManager).returned = true ∧
    (Cleanup startingManager).final.m_pendingUpdates = [] ∧
    (newCalls startingManager (Cleanup startingManager)).count (Event.clientsStop 1) = 1 ∧
    1 ∉ (Cleanup startingManager).final.heap ∧
    (Cleanup startingManager).final.m_initialisedEvent = false ∧
    GetState (Cleanup startingManager).final = ManagerStateStopped ∧
    (Cleanup startingManager).final.m_outdatedAddons = startingManager.m_outdatedAddons ∧
    (Cleanup startingManager).final.m_clientsManager = some 1 ∧
    (Cleanup startingManager).final.m_clientsManager ≠ none := by
  decide

/-- C14 (the code at the failing input): on a manager holding the live
container 1, the first `Cleanup` returns and the second does not: it stops at
`m_clientsManager->Stop()` on the deleted container.  The same happens inside
`Start`, where the `Cleanup` of `Stop` is followed by the one of
`ResetProperties`. -/
theorem C14_second_cleanup_uses_deleted_container :
    (Cleanup startingManager).returned = true ∧
    ((Cleanup startingManager).andThen fun _ m => Cleanup m).returned = false ∧
    ((Cleanup startingManager).andThen fun _ m => Cleanup m)
      = .fault ((Cleanup startingManager).andThen fun _ m => Cleanup m).final ∧
    (Start false false startingManager).returned = false := by
  decide

/-- C15 (the code at the failing input): `Start` on a manager in state
`ManagerStateStarting` holding the live container 1 does not return, for
either value of its arguments: `Stop` tears the session down, stopping and
deleting the container, and `ResetProperties` then runs `Cleanup` on the
deleted container.  No new container has been created at that point. -/
theorem C15_start_on_running_manager_does_not_return :
    GetState startingManager = ManagerStateStarting ∧
    startingManager.m_clientsManager = some 1 ∧ 1 ∈ startingManager.heap ∧
    (Start false false startingManager).returned = false ∧
    (Start true false startingManager).returned = false ∧
    (Start false true startingManager).returned = false ∧
    (Start true true startingManager).returned = false ∧
    (newCalls startingManager (Start false false startingManager))
      = [Event.setState ManagerStateStopping, Event.clientsStop 1, Event.clientsDelete 1,
         Event.setState ManagerStateStopped, Event.cleanupDone] := by
  decide

/-- C16 (the code at the failing input): with `hdl` null and `cb` not null,
`VOIP_add_menu_hook` reads `addonData` through the null `hdl`; it is not a
no-op.  `VOIP_register_me` and `VOIP_unregister_me` do test `hdl`: with a
null `hdl` the first returns null and the second returns, both without a
callback. -/
theorem C16_add_menu_hook_reads_null_handle :
    VOIP_add_menu_hook none (some 1) (some 2) = .nullDeref [] ∧
    VOIP_register_me none = .ok none [ShimCall.errNullHandle] ∧
    VOIP_unregister_me none (some 1) = .ok () [] ∧
    VOIP_add_menu_hook none none (some 2) = .ok () [] := by
  decide

/-- C17 (counterexample): a synchronous `Start` on a new manager, with a
`Load` that would succeed on its first call, returns in state
`ManagerStateStarting`, not `ManagerStateStarted`, with the initialised
signal not set and without a `Load` call. -/
theorem C17_start_returns_before_load :
    Load (fresh true).loadCalls = true ∧
    (Start false false (fresh true)).returned = true ∧
    ¬ (GetState (Start false false (fresh true)).final = ManagerStateStarted ∧
        (Start false false (fresh true)).final.m_initialisedEvent = true) ∧
    GetState (Start false false (fresh true)).final = ManagerStateStarting ∧
    (Start false false (fresh true)).final.m_initialisedEvent = false ∧
    (newCalls (fresh true) (Start false false (fresh true))).countP Event.isLoad = 0 := by
  decide

/-- C17 (amended): `Start` does not run the load and retry loop, for either
value of `bAsync`.  On a manager where `Start` runs to its end (pointer
`NULL`, or state `ManagerStateStopped` or `ManagerStateStopping` with a live
container) it returns in state `ManagerStateStarting` with the initialised
signal not set and without having called `Load`. -/
theorem C17_start_leaves_state_starting (bAsync bOpenVOIPWindow : Bool) (m : Manager)
    (h : startDefined m) :
    ∃ m', Start bAsync bOpenVOIPWindow m = .ok () m' ∧
      GetState m' = ManagerStateStarting ∧ m'.m_initialisedEvent = false ∧
      m'.loadCalls = m.loadCalls := by
  obtain ⟨m', h1, h2, h3, _, h5, _⟩ := Start_ok bAsync bOpenVOIPWindow m h
  exact ⟨m', h1, h2, h3, h5⟩

/-- C17 (amended) at a new manager, synchronous. -/
theorem C17_start_leaves_state_starting_witness :
    startDefined (fresh true) ∧
    ∃ m', Start false false (fresh true) = .ok () m' ∧
      GetState m' = ManagerStateStarting ∧ m'.m_initialisedEvent = false ∧
      m'.loadCalls = (fresh true).loadCalls :=
  ⟨by decide, C17_start_leaves_state_starting false false (fresh true) (by decide)⟩

/-! ## The outdated-set under the operations of the manager -/

theorem UpgradeOutdatedAddons_eq (load : Nat → Bool) (fuel : Nat) (m : Manager) :
    UpgradeOutdatedAddons load fuel m = .ok true m := by
  cases hl : m.m_outdatedAddons with
  | nil => simp [UpgradeOutdatedAddons, hl]
  | cons hd tl => simp [UpgradeOutdatedAddons, hl, InstallAddonAllowed_eq_false]

theorem mem_mapInsert_of_mem (k v : String) (l : List (String × String)) (x : String × String)
    (hx : x ∈ l) : x ∈ mapInsert k v l := by
  induction l with
  | nil => cases hx
  | cons hd tl ih =>
    obtain ⟨k', v'⟩ := hd
    by_cases c1 : k.data < k'.data
    · simp only [mapInsert, c1, if_true]
      exact List.mem_cons_of_mem _ hx
    · by_cases c2 : k = k'
      · simpa [mapInsert, c1, c2] using hx
      · simp only [mapInsert, c1, c2, if_false]
        rcases List.mem_cons.mp hx with e | hx
        · rw [e]; exact List.mem_cons_self _ _
        · exact List.mem_cons_of_mem _ (ih hx)

theorem Stop_quiet (m : Manager) : quiet m (Stop m) := by
  unfold Stop
  split
  · exact quiet_ok _ _
  · apply SetState_quiet ManagerStateStopping
    exact quiet_step (SetState ManagerStateStopping m) _ _ [] (by simp) (by simp [noInstall])
      rfl rfl (Cleanup_quiet _)

theorem Start_quiet (a w : Bool) (m : Manager) : quiet m (Start a w m) := by
  unfold Start
  apply quiet_andThen _ _ _ (Stop_quiet m)
  intro _ m1
  apply quiet_andThen _ _ _ (Cleanup_quiet m1)
  intro _ m2
  refine ⟨[Event.setState ManagerStateStarting,
    Event.clientsNew (freshAddr (SetState ManagerStateStarting m2)),
    Event.clientsStart (freshAddr (SetState ManagerStateStarting m2))], ?_, ?_, rfl, rfl⟩
  · simp [Outcome.final, emit, SetState]
  · intro e he
    simp only [List.mem_cons, List.mem_singleton] at he
    rcases he with rfl | rfl | rfl | he
    · rfl
    · rfl
    · rfl
    · cases he

theorem Process_quiet (load : Nat → Bool) (fuel : Nat) (m : Manager) :
    quiet m (Process load fuel m) := by
  unfold Process
  apply quiet_andThen _ _ _ (loadRetry_quiet load fuel m)
  intro _ m1
  split
  · refine ⟨[Event.setState ManagerStateStarted], ?_, ?_, rfl, rfl⟩
    · simp [Outcome.final, emit, SetState]
    · intro e he
      rw [List.mem_singleton.mp he]
      rfl
  · exact quiet_ok _ _

theorem quiet_outdated {α : Type} (m : Manager) (r : Outcome α) (h : quiet m r) :
    r.final.m_outdatedAddons = m.m_outdatedAddons := by
  obtain ⟨_, _, _, _, ho⟩ := h
  exact ho

/-- C19: in the code as written `UpgradeOutdatedAddons` returns true and
leaves the manager as it was, trace included, whatever the manager: no
installer call, no `Cleanup`, no `SetState`, the same outdated-set.  And no
operation of the manager removes an entry of the outdated-set, however the
operation ends. -/
theorem C19_upgrade_never_runs (load : Nat → Bool) (fuel : Nat) (m : Manager) :
    UpgradeOutdatedAddons load fuel m = .ok true m ∧
    ∀ op : Op, m.m_outdatedAddons ⊆ (op.after load fuel m).m_outdatedAddons := by
  refine ⟨UpgradeOutdatedAddons_eq load fuel m, ?_⟩
  intro op
  cases op with
  | start a w => simp only [Op.after, quiet_outdated m _ (Start_quiet a w m)]; exact fun _ h => h
  | stop => simp only [Op.after, quiet_outdated m _ (Stop_quiet m)]; exact fun _ h => h
  | cleanup => simp only [Op.after, quiet_outdated m _ (Cleanup_quiet m)]; exact fun _ h => h
  | resetProperties =>
    simp only [Op.after, ResetProperties, quiet_outdated m _ (Cleanup_quiet m)]
    exact fun _ h => h
  | setState s => exact fun _ h => h
  | process =>
    simp only [Op.after, quiet_outdated m _ (Process_quiet load fuel m)]; exact fun _ h => h
  | markAsOutdated id ref =>
    intro x hx
    simp only [Op.after, MarkAsOutdated]
    split
    · exact mem_mapInsert_of_mem id ref _ x hx
    · exact hx
  | upgradeOutdatedAddons =>
    simp only [Op.after, UpgradeOutdatedAddons_eq, Outcome.final]; exact fun _ h => h

/-! ## The upgrade pass and the retry loop as the code has them -/

end VOIP
